import Mathlib

/-!
Formal model of the Kalacam facial-identity registry backend.

The Python sources are shallowly embedded as pure Lean functions:
* the SQLAlchemy `usuarios` table becomes a `List Usuario` threaded through
  the operations (list order models the store's insertion iteration order);
* the image volume becomes a `List String` of stored file paths;
* the in-memory token set becomes a `List String` with set semantics;
* `HTTPException` raising code is translated to `Except HttpError`;
* the external embedding provider (DeepFace) is an opaque parameter: each
  operation that extracts an embedding receives the provider's outcome as an
  `Except HttpError (List Rat)` argument;
* cosine distance over double-precision floats is abstracted as a
  rational-valued function parameter `dist : Emb → Emb → Rat`, since the
  candidate-selection logic and the registry invariants are independent of
  the metric's numeric details; theorems that need symmetry of cosine
  distance take it as an explicit hypothesis.
-/

/-- An HTTP error, modelling FastAPI's `HTTPException(status_code, detail)`. -/
structure HttpError where
  status : Nat
  detail : String
deriving Repr, DecidableEq

/-- A facial embedding: the `List[float]` produced by the provider, with exact
rationals standing in for the doubles. -/
abbrev Emb := List ℚ

/-- The distance metric, abstracting `scipy.spatial.distance.cosine`; the first
argument is the query/new embedding, the second the stored one, exactly as in
`cosine(embedding_nuevo, emb_db)`. -/
abbrev DistFn := Emb → Emb → ℚ

/-- From `service/usuario_service.py`: `UMBRAL_SIMILITUD = 0.37`, written as
the already-normalized numerator/denominator pair so that concrete
computations reduce definitionally; the lemma below restates it as `37/100`. -/
def UMBRAL_SIMILITUD : ℚ := ⟨37, 100, by norm_num, by norm_num⟩

/-- The duplicate/recognition threshold is the rational `0.37`. -/
lemma UMBRAL_SIMILITUD_eq : UMBRAL_SIMILITUD = 37 / 100 := by
  norm_num [UMBRAL_SIMILITUD, Rat.mk'_eq_divInt, Rat.divInt_eq_div]

/-- A row of the `usuarios` table (`model/models.py`): id, nombre, apellido,
email, embedding (JSON list), imagen (nullable relative path). -/
structure Usuario where
  id : Nat
  nombre : String
  apellido : String
  email : String
  embedding : Emb
  imagen : Option String
deriving Repr, DecidableEq

/-- A row of the `historial` table (`model/models.py`), without the
DB-generated id/fecha. -/
structure Historial where
  accion : String
  metodo : String
  endpoint : String
  ip : String
  user_agent : String
deriving Repr, DecidableEq

/-- SQLAlchemy's `IntegrityError`, keeping only `str(e.orig)`, which is all
`crearUsuario` inspects. -/
structure IntegrityError where
  origMsg : String
deriving Repr, DecidableEq

/-- Python's `str.strip()`: drop leading and trailing whitespace (character-list
implementation, so that concrete values reduce definitionally). -/
def strip (s : String) : String :=
  ⟨((s.data.dropWhile Char.isWhitespace).reverse.dropWhile Char.isWhitespace).reverse⟩

/-- Python's `str.lower()` (ASCII case folding on the character list). -/
def toLowerStr (s : String) : String := ⟨s.data.map Char.toLower⟩

/-- Whether `pat` is a leading sequence of `l` (character lists). -/
def listStartsWith : List Char → List Char → Bool
  | [], _ => true
  | _ :: _, [] => false
  | p :: ps, c :: cs => p == c && listStartsWith ps cs

/-- Substring containment, modelling Python's `"pat" in s`. -/
def strContains (s pat : String) : Bool :=
  (List.range (s.data.length + 1)).any fun i => listStartsWith pat.data (s.data.drop i)

/-- A `\w` character of the email regex in `crearUsuario` (ASCII word chars). -/
def isWordChar (c : Char) : Bool := c.isAlphanum || c == '_'

/-- A `[\w\.-]` character of the email regex in `crearUsuario`. -/
def isLocalChar (c : Char) : Bool := isWordChar c || c == '.' || c == '-'

/-- The domain part `[\w\.-]+\.\w+` of the email regex: some split into a
non-empty `[\w\.-]+` run, a literal dot, and a non-empty `\w+` tail. -/
def matchesDomain (l : List Char) : Bool :=
  (List.range l.length).any fun i =>
    !(l.take i).isEmpty && (l.take i).all isLocalChar &&
      (match l.drop i with
       | '.' :: suf => !suf.isEmpty && suf.all isWordChar
       | _ => false)

/-- The whole pattern `[\w\.-]+@[\w\.-]+\.\w+` on a character list. -/
def matchesEmailChars (l : List Char) : Bool :=
  (List.range l.length).any fun i =>
    !(l.take i).isEmpty && (l.take i).all isLocalChar &&
      (match l.drop i with
       | '@' :: dom => matchesDomain dom
       | _ => false)

/-- From `crearUsuario`: `re.match(r"^[\w\.-]+@[\w\.-]+\.\w+$", email)`.
Python's `$` also matches just before a single trailing newline, which the
second disjunct reproduces. -/
def emailValido (email : String) : Bool :=
  matchesEmailChars email.data ||
    (match email.data.getLast? with
     | some c => c == '\n' && matchesEmailChars email.data.dropLast
     | none => false)

/-- From `storage_service.py`: `obtener_extension_desde_content_type`. -/
def obtener_extension_desde_content_type (content_type : String) : String :=
  if strContains content_type "jpeg" || strContains content_type "jpg" then "jpg"
  else if strContains content_type "png" then "png"
  else "jpg"

/-- The relative path `f"usuarios/{nombre_archivo}"` returned by
`subir_imagen`, with the generated uuid passed in as `imgName`. -/
def rutaRelativa (imgName ext : String) : String := "usuarios/" ++ imgName ++ "." ++ ext

/-- The full on-disk path `os.path.join(VOLUMEN_PATH, "images", ruta_relativa)`
with the default `VOLUMEN_PATH = "uploads"`. -/
def rutaCompleta (rutaRel : String) : String := "uploads/images/" ++ rutaRel

/-- The full path of a freshly stored image, i.e.
`os.path.join(IMAGENES_PATH, nombre_archivo)` where
`IMAGENES_PATH = uploads/images/usuarios`. -/
def imagenPath (imgName ext : String) : String :=
  "uploads/images/usuarios/" ++ imgName ++ "." ++ ext

/-- From `storage_service.py`: `eliminar_imagen(ruta_relativa)`.  The file
system is a list `fs` of existing paths; `removeFails p = true` models
`os.remove(p)` raising (the `except Exception: pass` path).  Returns the
Python return value together with the resulting file system. -/
def eliminar_imagen (fs : List String) (removeFails : String → Bool)
    (ruta_relativa : String) : Bool × List String :=
  if ruta_relativa = "" then (false, fs)
  else
    let ruta := rutaCompleta ruta_relativa
    if fs.contains ruta then
      if removeFails ruta then (false, fs)
      else (true, fs.filter (fun p => p ≠ ruta))
    else (false, fs)

/-- From `storage_service.py`: `subir_imagen` writes a uniquely named file and
returns the relative path; the uuid is passed in as `imgName` and write
failure (`HTTPException 500`) is modelled by the caller's `uploadFails` flag. -/
def subir_imagen (fs : List String) (imgName ext : String) : List String × String :=
  (fs ++ [imagenPath imgName ext], rutaRelativa imgName ext)

/-- From `usuario_repository.py`: `obtener_usuario` — first row with the id. -/
def obtener_usuario (db : List Usuario) (usuario_id : Nat) : Option Usuario :=
  db.find? (fun u => u.id == usuario_id)

/-- The autoincrement primary key the store assigns on insert: one more than
the largest id present. -/
def nextId (db : List Usuario) : Nat := 1 + db.foldr (fun u m => max u.id m) 0

/-- From `usuario_repository.py`: `crear_usuario` (`db.add; db.commit`).  The
commit enforces the schema's unique constraint on `email`
(`email = Column(String(255), unique=True)`): a clashing email raises
`IntegrityError`, otherwise the row is appended with a fresh id. -/
def crear_usuario (db : List Usuario) (usuario : Usuario) :
    Except IntegrityError (List Usuario × Usuario) :=
  if db.any (fun v => v.email == usuario.email) then
    .error ⟨"UNIQUE constraint failed: usuarios.email"⟩
  else
    let guardado := { usuario with id := nextId db }
    .ok (db ++ [guardado], guardado)

/-- From `usuario_repository.py`: `eliminar_usuario` — delete the first row
with the id, report whether one was found. -/
def eliminar_usuario (db : List Usuario) (usuario_id : Nat) : Bool × List Usuario :=
  match db with
  | [] => (false, [])
  | u :: rest =>
    if u.id == usuario_id then (true, rest)
    else
      let r := eliminar_usuario rest usuario_id
      (r.1, u :: r.2)

/-- From `usuario_service.py`: `validarRostro(contenido)`.  Empty content is
rejected up front; the DeepFace call is the opaque `provider` outcome.  The
in-source guard `len(embedding) == 0` raises an `HTTPException(400, ...)`
inside the `try`, which the blanket `except Exception` converts into the
500 `"Error procesando la imagen"` — the model reproduces that quirk. -/
def validarRostro (contenido : List Nat) (provider : Except HttpError Emb) :
    Except HttpError Emb :=
  if contenido = [] then .error ⟨400, "No se envió contenido de imagen"⟩
  else
    match provider with
    | .error e => .error e
    | .ok embedding =>
      if embedding = [] then .error ⟨500, "Error procesando la imagen"⟩
      else .ok embedding

/-- The `if excluir_usuario_id and usuario.id == excluir_usuario_id` guard of
`validarRostroDuplicado`, including Python's truthiness: an exclusion id of
`0` never excludes anyone. -/
def excludeUser (excluir : Option Nat) (uid : Nat) : Bool :=
  match excluir with
  | none => false
  | some e => e != 0 && uid == e

/-- From `usuario_service.py`: `validarRostroDuplicado` — walk all stored
users, skip the excluded one and those without an embedding, and raise 409 on
the first one closer than `UMBRAL_SIMILITUD` to the new embedding. -/
def validarRostroDuplicado (dist : DistFn) (usuarios : List Usuario) (embedding : Emb)
    (excluir : Option Nat) : Except HttpError Unit :=
  match usuarios with
  | [] => .ok ()
  | u :: rest =>
    if excludeUser excluir u.id then validarRostroDuplicado dist rest embedding excluir
    else if u.embedding = [] then validarRostroDuplicado dist rest embedding excluir
    else if dist embedding u.embedding < UMBRAL_SIMILITUD then
      .error ⟨409, "Este rostro ya está registrado."⟩
    else validarRostroDuplicado dist rest embedding excluir


/-- View of an `Except` value as a sum, used to decide equality. -/
def exceptToSum : Except ε α → ε ⊕ α
  | .error e => .inl e
  | .ok a => .inr a

instance {ε α : Type} [DecidableEq ε] [DecidableEq α] : DecidableEq (Except ε α) := fun a b =>
  decidable_of_iff (exceptToSum a = exceptToSum b)
    (by cases a <;> cases b <;> simp [exceptToSum])

/-- The `content_type or "image/jpeg"` default applied by `crearUsuario`
(Python falsiness: `None` and the empty string both fall back). -/
def contentTypeEfectivo (content_type : Option String) : String :=
  match content_type with
  | some c => if c = "" then "image/jpeg" else c
  | none => "image/jpeg"

/-- Result of the registration service: the value/error returned together with
the resulting store and file system. -/
structure RegOutcome where
  result : Except HttpError Usuario
  db : List Usuario
  files : List String
deriving Repr, DecidableEq

/-- From `usuario_service.py`: `crearUsuario` — field validation in source
order, duplicate-face check, optional image upload (uuid passed as `imgName`,
write failure as `uploadFails`), then the store insert with its
`IntegrityError` handler (`db.rollback()` restores the store but nobody
removes the just-written image file). -/
def crearUsuario (dist : DistFn) (db : List Usuario) (files : List String)
    (nombre apellido email : String) (embedding : Emb)
    (imagen : List Nat) (content_type : Option String)
    (imgName : String) (uploadFails : Bool) : RegOutcome :=
  if nombre = "" ∨ strip nombre = "" then
    ⟨.error ⟨400, "El nombre no puede estar vacío"⟩, db, files⟩
  else if apellido = "" ∨ strip apellido = "" then
    ⟨.error ⟨400, "El apellido no puede estar vacío"⟩, db, files⟩
  else if nombre.length > 100 ∨ apellido.length > 100 then
    ⟨.error ⟨400, "El nombre o apellido es demasiado largo"⟩, db, files⟩
  else if email = "" ∨ strip email = "" then
    ⟨.error ⟨400, "El email no puede estar vacío"⟩, db, files⟩
  else if ¬ emailValido email then
    ⟨.error ⟨400, "El email no tiene un formato válido"⟩, db, files⟩
  else if embedding = [] then
    ⟨.error ⟨400, "Embedding inválido"⟩, db, files⟩
  else
    match validarRostroDuplicado dist db embedding none with
    | .error e => ⟨.error e, db, files⟩
    | .ok _ =>
      if imagen ≠ [] ∧ uploadFails then
        ⟨.error ⟨400, "Error al subir imagen: Error al guardar imagen en volumen"⟩, db, files⟩
      else
        let ext := obtener_extension_desde_content_type (contentTypeEfectivo content_type)
        let ruta_imagen : Option String :=
          if imagen ≠ [] then some (rutaRelativa imgName ext) else none
        let files1 := if imagen ≠ [] then (subir_imagen files imgName ext).1 else files
        let nuevo : Usuario :=
          ⟨0, strip nombre, strip apellido, toLowerStr (strip email), embedding, ruta_imagen⟩
        match crear_usuario db nuevo with
        | .ok (db1, guardado) => ⟨.ok guardado, db1, files1⟩
        | .error e =>
          if strContains (toLowerStr e.origMsg) "email" ∨ strContains (toLowerStr e.origMsg) "duplicate" then
            ⟨.error ⟨409, s!"El email {email} ya está registrado. Por favor, use otro email."⟩,
              db, files1⟩
          else
            ⟨.error ⟨400, "Error al crear usuario"⟩, db, files1⟩

/-- The candidate loop of `compararRostro`: running best (`menor_distancia`,
`usuario_reconocido`) as an accumulator, `none` standing for the initial
`float("inf")` / `None` pair; rows without an embedding are skipped and only a
strictly smaller distance replaces the best. -/
def recorrerUsuarios (dist : DistFn) (q : Emb) :
    List Usuario → Option (ℚ × Usuario) → Option (ℚ × Usuario)
  | [], acc => acc
  | u :: rest, acc =>
    if u.embedding = [] then recorrerUsuarios dist q rest acc
    else
      match acc with
      | none => recorrerUsuarios dist q rest (some (dist q u.embedding, u))
      | some (m, r) =>
        if dist q u.embedding < m then recorrerUsuarios dist q rest (some (dist q u.embedding, u))
        else recorrerUsuarios dist q rest (some (m, r))

/-- From `usuario_service.py`: `compararRostro` — extract the query embedding,
fail hard on an empty store, then scan for the closest stored embedding and
recognize it only strictly below `UMBRAL_SIMILITUD`. -/
def compararRostro (dist : DistFn) (usuarios : List Usuario) (contenido : List Nat)
    (provider : Except HttpError Emb) : Except HttpError (Option String) :=
  match validarRostro contenido provider with
  | .error e => .error e
  | .ok q =>
    if usuarios = [] then .error ⟨404, "No hay usuarios registrados"⟩
    else
      match recorrerUsuarios dist q usuarios none with
      | some (m, u) => if m < UMBRAL_SIMILITUD then .ok (some u.nombre) else .ok none
      | none => .ok none

/-- The decimal digits of `n`, most significant first, written with structural
fuel so that concrete values reduce definitionally. -/
def decDigitsAux : Nat → Nat → List Char
  | 0, _ => []
  | fuel + 1, n =>
    if n < 10 then [Char.ofNat (48 + n)]
    else decDigitsAux fuel (n / 10) ++ [Char.ofNat (48 + n % 10)]

/-- Python's `str` on a non-negative integer: its decimal representation. -/
def natStr (n : Nat) : String := ⟨decDigitsAux (n + 1) n⟩

/-- From `token_service.py`: `generar_token` — `str(random.randint(100000,
999999))` with the drawn number passed in as `n`; the token is added to the
process-wide set (here: a duplicate-free list). -/
def generar_token (n : Nat) (tokens : List String) : String × List String :=
  let token := natStr n
  (token, if tokens.contains token then tokens else tokens ++ [token])

/-- From `token_service.py`: `validar_token` — pure membership test. -/
def validar_token (token : String) (tokens : List String) : Bool :=
  tokens.contains token

/-- From `token_service.py`: `eliminar_token` — `tokens_validos.discard`. -/
def eliminar_token (token : String) (tokens : List String) : List String :=
  tokens.filter (fun t => t ≠ token)

/-- The action-name derivation of `HistorialMiddleware.send_wrapper`. -/
def determinarAccion (endpoint metodo : String) : String :=
  if endpoint = "/subirUsuario" then "Creación de usuario"
  else if endpoint = "/compararCara" then "Intento de acceso via rostro"
  else if listStartsWith "/usuarios".data endpoint.data = true ∧ metodo = "GET" then "Consulta de usuario(s)"
  else if listStartsWith "/usuarios".data endpoint.data = true ∧ metodo = "PUT" then "Actualización de usuario"
  else if listStartsWith "/usuarios".data endpoint.data = true ∧ metodo = "DELETE" then "Eliminación de usuario"
  else if endpoint = "/historial" then "Consulta de historial"
  else s!"Request a {endpoint}"

/-- From `historial_repository.py`: `crear_historial` — `db.add; db.commit;
db.refresh` with no exception handling; a failing commit (modelled by
`writeFails`) raises out of the function. -/
def crear_historial (writeFails : Bool) (log : List Historial) (historial : Historial) :
    Except String (List Historial) :=
  if writeFails then .error "database write failed"
  else .ok (log ++ [historial])

/-- From `historial_middleware.py`: the `send_wrapper` closure at an
`http.response.start` message — it derives the action, writes the historial
row, and only then forwards the response message; there is no try/except, so
a failing write propagates and the response is never forwarded. -/
def send_wrapper (writeFails : Bool) (log : List Historial)
    (endpoint metodo ip user_agent : String) (response : String) :
    Except String (List Historial × String) :=
  match crear_historial writeFails log
      ⟨determinarAccion endpoint metodo, metodo, endpoint, ip, user_agent⟩ with
  | .error e => .error e
  | .ok log1 => .ok (log1, response)



/-- The optional form fields of `PUT /usuarios/{id}` — the `datos` dict built
in `update_usuario` keeps only the fields that were supplied. -/
structure Datos where
  nombre : Option String
  apellido : Option String
  email : Option String
deriving Repr, DecidableEq

/-- `setattr(usuario, key, value)` for each supplied field: id, embedding and
imagen are untouched. -/
def aplicarDatos (u : Usuario) (d : Datos) : Usuario :=
  { u with
    nombre := d.nombre.getD u.nombre
    apellido := d.apellido.getD u.apellido
    email := d.email.getD u.email }

/-- From `usuario_repository.py`: `actualizar_usuario` — set the supplied
fields on the first row with the id and commit; `none` if no row matches.
Returns the refreshed row together with the resulting store. -/
def actualizar_usuario (db : List Usuario) (usuario_id : Nat) (datos : Datos) :
    Option (Usuario × List Usuario) :=
  match db with
  | [] => none
  | u :: rest =>
    if u.id == usuario_id then some (aplicarDatos u datos, aplicarDatos u datos :: rest)
    else
      match actualizar_usuario rest usuario_id datos with
      | some (v, rest1) => some (v, u :: rest1)
      | none => none

/-- The second commit of the update endpoint: store the new `imagen` and
`embedding` on the first row with the id. -/
def setImagenEmbedding (db : List Usuario) (usuario_id : Nat) (emb : Emb)
    (ruta : String) : List Usuario :=
  match db with
  | [] => []
  | u :: rest =>
    if u.id == usuario_id then { u with embedding := emb, imagen := some ruta } :: rest
    else u :: setImagenEmbedding rest usuario_id emb ruta

/-- An optional image upload of a request: its declared content type, raw
bytes, the provider's outcome on those bytes, the uuid the storage layer will
draw, and whether the volume write would fail. -/
structure ImgUpload where
  contentType : String
  contenido : List Nat
  provider : Except HttpError Emb
  imgName : String
  uploadFails : Bool

/-- Whether a content type passes the `in ["image/jpeg", "image/png"]` gate. -/
def contentTypePermitido (ct : String) : Bool :=
  ct == "image/jpeg" || ct == "image/png"

/-- Outcome of the registration endpoint, with flags recording which
processing steps were reached (the file body being read, `validarRostro` —
the embedding-provider call — and the `crearUsuario` service). -/
structure SubirOutcome where
  result : Except HttpError String
  db : List Usuario
  files : List String
  bytesRead : Bool
  providerCalled : Bool
  crearCalled : Bool
deriving Repr, DecidableEq

/-- From `main.py`: `POST /subirUsuario` — content-type gate, file read,
`validarRostro`, then `crearUsuario`. -/
def subir_usuario (dist : DistFn) (db : List Usuario) (files : List String)
    (nombre apellido email : String) (contentType : String) (contenido : List Nat)
    (provider : Except HttpError Emb) (imgName : String) (uploadFails : Bool) :
    SubirOutcome :=
  if ¬ contentTypePermitido contentType then
    ⟨.error ⟨400, "Tipo de archivo no permitido"⟩, db, files, false, false, false⟩
  else
    match validarRostro contenido provider with
    | .error e => ⟨.error e, db, files, true, true, false⟩
    | .ok embedding =>
      let r := crearUsuario dist db files nombre apellido email embedding contenido
        (some contentType) imgName uploadFails
      match r.result with
      | .error e => ⟨.error e, r.db, r.files, true, true, true⟩
      | .ok _ =>
        ⟨.ok s!"El usuario {nombre} {apellido}, ha sido creado exitosamente",
          r.db, r.files, true, true, true⟩

/-- Outcome of the face-comparison endpoint, with the same step flags and the
resulting token set. -/
structure CompararOutcome where
  result : Except HttpError String
  tokens : List String
  bytesRead : Bool
  providerCalled : Bool
deriving Repr, DecidableEq

/-- From `main.py`: `POST /compararCara` — content-type gate, file read,
`compararRostro`, and on a recognized (truthy) name a fresh token. -/
def comparar_cara (dist : DistFn) (db : List Usuario) (tokens : List String)
    (contentType : String) (contenido : List Nat) (provider : Except HttpError Emb)
    (n : Nat) : CompararOutcome :=
  if ¬ contentTypePermitido contentType then
    ⟨.error ⟨400, "Tipo de archivo no permitido"⟩, tokens, false, false⟩
  else
    match compararRostro dist db contenido provider with
    | .error e => ⟨.error e, tokens, true, true⟩
    | .ok none => ⟨.error ⟨401, "Rostro no reconocido"⟩, tokens, true, true⟩
    | .ok (some nombre_usuario) =>
      if nombre_usuario = "" then ⟨.error ⟨401, "Rostro no reconocido"⟩, tokens, true, true⟩
      else
        let r := generar_token n tokens
        ⟨.ok s!"Hola {nombre_usuario}, token: {r.1}", r.2, true, true⟩

/-- Outcome of the update endpoint. -/
structure UpdateOutcome where
  result : Except HttpError Usuario
  db : List Usuario
  files : List String
deriving Repr, DecidableEq

/-- From `main.py`: `PUT /usuarios/{id}` — optional content-type gate, then
`actualizar_usuario` commits the field changes, then (only if an image was
supplied) `validarRostro`, the duplicate check excluding the user itself,
removal of the old image file, the new upload, and a second commit replacing
`imagen` and `embedding` together. -/
def update_usuario (dist : DistFn) (db : List Usuario) (files : List String)
    (usuario_id : Nat) (datos : Datos) (imagen : Option ImgUpload)
    (removeFails : String → Bool) : UpdateOutcome :=
  if (match imagen with
      | some img => !contentTypePermitido img.contentType
      | none => false) then
    ⟨.error ⟨400, "Tipo de archivo no permitido"⟩, db, files⟩
  else
    match actualizar_usuario db usuario_id datos with
    | none => ⟨.error ⟨404, "Usuario no encontrado"⟩, db, files⟩
    | some (u1, db1) =>
      match imagen with
      | none => ⟨.ok u1, db1, files⟩
      | some img =>
        match validarRostro img.contenido img.provider with
        | .error e => ⟨.error e, db1, files⟩
        | .ok nuevo_embedding =>
          match validarRostroDuplicado dist db1 nuevo_embedding (some usuario_id) with
          | .error e => ⟨.error e, db1, files⟩
          | .ok _ =>
            let files1 := match u1.imagen with
              | some r => if r ≠ "" then (eliminar_imagen files removeFails r).2 else files
              | none => files
            if img.uploadFails then
              ⟨.error ⟨500, "Error al guardar imagen en volumen"⟩, db1, files1⟩
            else
              let ext := obtener_extension_desde_content_type img.contentType
              let subida := subir_imagen files1 img.imgName ext
              ⟨.ok { u1 with embedding := nuevo_embedding, imagen := some subida.2 },
                setImagenEmbedding db1 usuario_id nuevo_embedding subida.2, subida.1⟩

/-- From `main.py`: `DELETE /usuarios/{id}` — look the row up, best-effort
delete its image file (the return value of `eliminar_imagen` is ignored),
then delete the row. -/
def delete_usuario (db : List Usuario) (files : List String)
    (removeFails : String → Bool) (usuario_id : Nat) :
    Except HttpError String × List Usuario × List String :=
  match obtener_usuario db usuario_id with
  | none => (.error ⟨404, "Usuario no encontrado"⟩, db, files)
  | some u =>
    let files1 := match u.imagen with
      | some r => if r ≠ "" then (eliminar_imagen files removeFails r).2 else files
      | none => files
    match eliminar_usuario db usuario_id with
    | (true, db1) => (.ok "Usuario eliminado correctamente", db1, files1)
    | (false, db1) => (.error ⟨404, "Usuario no encontrado"⟩, db1, files1)

/-- A write operation against the registry: a registration request or an
update request, with every piece of per-request nondeterminism (provider
outcome, uuid, storage failures) carried in the operation. -/
inductive Op where
  | register (nombre apellido email contentType : String) (contenido : List Nat)
      (provider : Except HttpError Emb) (imgName : String) (uploadFails : Bool)
  | update (usuario_id : Nat) (datos : Datos) (imagen : Option ImgUpload)
      (removeFails : String → Bool)

/-- Run one operation against the store and file system, keeping only the
resulting state (responses are irrelevant to the stored data). -/
def runOp (dist : DistFn) (s : List Usuario × List String) (op : Op) :
    List Usuario × List String :=
  match op with
  | .register nombre apellido email contentType contenido provider imgName uploadFails =>
    let r := subir_usuario dist s.1 s.2 nombre apellido email contentType contenido
      provider imgName uploadFails
    (r.db, r.files)
  | .update usuario_id datos imagen removeFails =>
    let r := update_usuario dist s.1 s.2 usuario_id datos imagen removeFails
    (r.db, r.files)

/-- Run a sequence of operations starting from the empty registry. -/
def runOps (dist : DistFn) (ops : List Op) : List Usuario × List String :=
  ops.foldl (runOp dist) ([], [])

/-- A decimal digit rendered by `decDigitsAux` is a digit character. -/
lemma charOfDigit_isDigit (m : Nat) (h : m < 10) : (Char.ofNat (48 + m)).isDigit = true := by
  interval_cases m <;> decide

/-- Length of the decimal representation: numbers in `[10^k, 10^(k+1))` have
`k + 1` digits. -/
lemma decDigitsAux_length :
    ∀ (fuel n k : Nat), n ≤ fuel → 10 ^ k ≤ n → n < 10 ^ (k + 1) →
      (decDigitsAux fuel n).length = k + 1 := by
  intro fuel
  induction fuel with
  | zero =>
    intro n k hle hlo _
    have h1 : 1 ≤ 10 ^ k := Nat.one_le_pow _ _ (by norm_num)
    omega
  | succ fuel ih =>
    intro n k hle hlo hhi
    by_cases h : n < 10
    · have hk : k = 0 := by
        by_contra hk
        have h10 : (10:Nat) ^ 1 ≤ 10 ^ k := Nat.pow_le_pow_right (by norm_num) (by omega)
        rw [pow_one] at h10
        omega
      subst hk
      simp [decDigitsAux, h]
    · have h10 : 10 ≤ n := by omega
      cases k with
      | zero =>
        rw [pow_one] at hhi
        omega
      | succ k =>
        have hdiv_le : n / 10 ≤ fuel := by
          have := Nat.div_lt_self (by omega : 0 < n) (by norm_num : 1 < 10)
          omega
        have hlo2 : 10 ^ k ≤ n / 10 := by
          rw [Nat.le_div_iff_mul_le (by norm_num : 0 < 10)]
          calc 10 ^ k * 10 = 10 ^ (k + 1) := (pow_succ 10 k).symm
          _ ≤ n := hlo
        have hhi2 : n / 10 < 10 ^ (k + 1) := by
          rw [Nat.div_lt_iff_lt_mul (by norm_num : 0 < 10)]
          calc n < 10 ^ (k + 2) := hhi
          _ = 10 ^ (k + 1) * 10 := pow_succ 10 (k + 1)
        have hrec := ih (n / 10) k hdiv_le hlo2 hhi2
        simp [decDigitsAux, h, hrec]

/-- Every character produced by `decDigitsAux` is a decimal digit. -/
lemma decDigitsAux_isDigit :
    ∀ (fuel n : Nat) (c : Char), c ∈ decDigitsAux fuel n → c.isDigit = true := by
  intro fuel
  induction fuel with
  | zero => intro n c hc; simp [decDigitsAux] at hc
  | succ fuel ih =>
    intro n c hc
    by_cases h : n < 10
    · simp [decDigitsAux, h] at hc
      subst hc
      exact charOfDigit_isDigit n h
    · simp [decDigitsAux, h] at hc
      rcases hc with hc | hc
      · exact ih _ _ hc
      · subst hc
        exact charOfDigit_isDigit (n % 10) (Nat.mod_lt _ (by norm_num))

/-- C4: a token issued by `generar_token` for a draw in `[100000, 999999]` is
a fixed-width 6-digit numeric string; immediately after issue it validates,
`validar_token` is a pure read (it returns a `Bool` and leaves the set
untouched by construction), and after `eliminar_token` it no longer
validates. -/
theorem ciclo_vida_token (n : Nat) (tokens : List String)
    (h1 : 100000 ≤ n) (h2 : n ≤ 999999) :
    (generar_token n tokens).1.length = 6 ∧
    (∀ c ∈ (generar_token n tokens).1.data, c.isDigit = true) ∧
    validar_token (generar_token n tokens).1 (generar_token n tokens).2 = true ∧
    validar_token (generar_token n tokens).1
      (eliminar_token (generar_token n tokens).1 (generar_token n tokens).2) = false := by
  refine ⟨?_, ?_, ?_, ?_⟩
  · show (natStr n).length = 6
    have h5 : (10:Nat) ^ 5 ≤ n := by norm_num; omega
    have h6 : n < 10 ^ (5 + 1) := by norm_num; omega
    have := decDigitsAux_length (n + 1) n 5 (by omega) h5 h6
    simpa [natStr, String.length] using this
  · intro c hc
    exact decDigitsAux_isDigit (n + 1) n c hc
  · by_cases h : natStr n ∈ tokens <;>
      simp [generar_token, validar_token, h]
  · by_cases h : natStr n ∈ tokens <;>
      simp [generar_token, validar_token, eliminar_token, h, List.mem_filter]

/-- C4 witness: the lifecycle at the concrete draw 123456 on an empty set. -/
theorem ciclo_vida_token_witness :
    100000 ≤ 123456 ∧ 123456 ≤ 999999 ∧
    ((generar_token 123456 []).1.length = 6 ∧
      (∀ c ∈ (generar_token 123456 []).1.data, c.isDigit = true) ∧
      validar_token (generar_token 123456 []).1 (generar_token 123456 []).2 = true ∧
      validar_token (generar_token 123456 []).1
        (eliminar_token (generar_token 123456 []).1 (generar_token 123456 []).2) = false) :=
  ⟨by norm_num, by norm_num, ciclo_vida_token 123456 [] (by norm_num) (by norm_num)⟩

/-- C5: over an empty identity set the registration duplicate check returns
without error (no duplicate, so registration proceeds), while recognition —
once the query embedding was extracted — fails hard with the
"no users registered" error instead of any match/no-match result. -/
theorem conjunto_vacio_por_llamador (dist : DistFn) (embedding : Emb)
    (excluir : Option Nat) (contenido : List Nat) (provider : Except HttpError Emb)
    (q : Emb) (h : validarRostro contenido provider = .ok q) :
    validarRostroDuplicado dist [] embedding excluir = .ok () ∧
    compararRostro dist [] contenido provider =
      .error ⟨404, "No hay usuarios registrados"⟩ := by
  refine ⟨rfl, ?_⟩
  simp [compararRostro, h]

/-- C5 witness: the two behaviors at a concrete query over the empty store. -/
theorem conjunto_vacio_por_llamador_witness :
    validarRostroDuplicado (fun _ _ => 1) [] [1] none = .ok () ∧
    compararRostro (fun _ _ => 1) [] [1] (.ok [1]) =
      .error ⟨404, "No hay usuarios registrados"⟩ :=
  conjunto_vacio_por_llamador (fun _ _ => 1) [1] none [1] (.ok [1]) [1] rfl

/-- C6: a content type other than image/jpeg or image/png is rejected by both
upload endpoints before the body is read and before any provider call, with
store, volume and token set untouched; an accepted content type passes the
gate (the body is read and the provider called). -/
theorem filtro_content_type (dist : DistFn) (db : List Usuario) (files : List String)
    (nombre apellido email contentType : String) (contenido : List Nat)
    (provider : Except HttpError Emb) (imgName : String) (uploadFails : Bool)
    (tokens : List String) (n : Nat) :
    (contentTypePermitido contentType = false →
      subir_usuario dist db files nombre apellido email contentType contenido provider
          imgName uploadFails =
        ⟨.error ⟨400, "Tipo de archivo no permitido"⟩, db, files, false, false, false⟩ ∧
      comparar_cara dist db tokens contentType contenido provider n =
        ⟨.error ⟨400, "Tipo de archivo no permitido"⟩, tokens, false, false⟩) ∧
    (contentTypePermitido contentType = true →
      (subir_usuario dist db files nombre apellido email contentType contenido provider
          imgName uploadFails).bytesRead = true ∧
      (subir_usuario dist db files nombre apellido email contentType contenido provider
          imgName uploadFails).providerCalled = true ∧
      (comparar_cara dist db tokens contentType contenido provider n).bytesRead = true ∧
      (comparar_cara dist db tokens contentType contenido provider n).providerCalled = true) := by
  constructor
  · intro h
    constructor <;> simp [subir_usuario, comparar_cara, h]
  · intro h
    have hgate : ¬ ¬ (contentTypePermitido contentType = true) := by simp [h]
    refine ⟨?_, ?_, ?_, ?_⟩ <;>
      · simp only [subir_usuario, comparar_cara]
        rw [if_neg hgate]
        split <;> first
          | rfl
          | (split <;> rfl)

/-- C6 witness: text/plain is rejected with nothing processed; image/jpeg
passes the gate. -/
theorem filtro_content_type_witness :
    (contentTypePermitido "text/plain" = false →
      subir_usuario (fun _ _ => 1) [] [] "Ana" "Diaz" "a@b.com" "text/plain" [1] (.ok [1])
          "f1" false =
        ⟨.error ⟨400, "Tipo de archivo no permitido"⟩, [], [], false, false, false⟩ ∧
      comparar_cara (fun _ _ => 1) [] [] "text/plain" [1] (.ok [1]) 123456 =
        ⟨.error ⟨400, "Tipo de archivo no permitido"⟩, [], false, false⟩) ∧
    (contentTypePermitido "text/plain" = true →
      (subir_usuario (fun _ _ => 1) [] [] "Ana" "Diaz" "a@b.com" "text/plain" [1] (.ok [1])
          "f1" false).bytesRead = true ∧
      (subir_usuario (fun _ _ => 1) [] [] "Ana" "Diaz" "a@b.com" "text/plain" [1] (.ok [1])
          "f1" false).providerCalled = true ∧
      (comparar_cara (fun _ _ => 1) [] [] "text/plain" [1] (.ok [1]) 123456).bytesRead = true ∧
      (comparar_cara (fun _ _ => 1) [] [] "text/plain" [1] (.ok [1]) 123456).providerCalled
        = true) :=
  filtro_content_type (fun _ _ => 1) [] [] "Ana" "Diaz" "a@b.com" "text/plain" [1] (.ok [1])
    "f1" false [] 123456

/-- C7 counterexample: a failing historial write at the start of the response
propagates out of `send_wrapper` — the primary response is not forwarded, so
the failure is neither swallowed nor invisible to the caller. -/
theorem fallo_historial_propaga_cex :
    send_wrapper true [] "/usuarios" "GET" "10.0.0.1" "curl" "200 OK" =
      .error "database write failed" := rfl

/-- C7 amended: the audit write's outcome decides the request's fate — when
the historial write succeeds the response is forwarded unchanged with the row
appended, and when it fails the exception propagates through the send path
and the response is never forwarded. -/
theorem resultado_escritura_historial (log : List Historial)
    (endpoint metodo ip user_agent response : String) :
    send_wrapper false log endpoint metodo ip user_agent response =
      .ok (log ++ [⟨determinarAccion endpoint metodo, metodo, endpoint, ip, user_agent⟩],
        response) ∧
    send_wrapper true log endpoint metodo ip user_agent response =
      .error "database write failed" :=
  ⟨rfl, rfl⟩

/-- A user found by `obtener_usuario` is also found (and removed) by
`eliminar_usuario`. -/
lemma eliminar_usuario_encuentra :
    ∀ (db : List Usuario) (usuario_id : Nat) (u : Usuario),
      obtener_usuario db usuario_id = some u → (eliminar_usuario db usuario_id).1 = true := by
  intro db
  induction db with
  | nil => intro i u h; simp [obtener_usuario] at h
  | cons v rest ih =>
    intro i u h
    by_cases hv : (v.id == i) = true
    · simp [eliminar_usuario, hv]
    · simp only [obtener_usuario, List.find?] at h
      rw [Bool.not_eq_true] at hv
      rw [hv] at h
      simp [eliminar_usuario, hv]
      exact ih i u h

/-- C10: `eliminar_imagen` is total — it returns `true` exactly when the path
is non-empty, the file exists and removal does not fail, removing just that
file; in every `false` case the file system is untouched.  Consequently
`delete_usuario` succeeds (row removed, confirmation returned) for any
`removeFails` oracle, i.e. even when the stored image cannot be removed. -/
theorem eliminacion_imagen_total (fs : List String) (removeFails : String → Bool)
    (ruta : String) (db : List Usuario) (files : List String) (usuario_id : Nat)
    (u : Usuario) :
    ((eliminar_imagen fs removeFails ruta).1 = true ↔
      ¬(ruta = "") ∧ fs.contains (rutaCompleta ruta) = true ∧
        removeFails (rutaCompleta ruta) = false) ∧
    ((eliminar_imagen fs removeFails ruta).1 = true →
      (eliminar_imagen fs removeFails ruta).2 =
        fs.filter (fun p => p ≠ rutaCompleta ruta)) ∧
    ((eliminar_imagen fs removeFails ruta).1 = false →
      (eliminar_imagen fs removeFails ruta).2 = fs) ∧
    (obtener_usuario db usuario_id = some u →
      (delete_usuario db files removeFails usuario_id).1 =
        .ok "Usuario eliminado correctamente" ∧
      (eliminar_usuario db usuario_id).1 = true ∧
      (delete_usuario db files removeFails usuario_id).2.1 =
        (eliminar_usuario db usuario_id).2) := by
  refine ⟨?_, ?_, ?_, ?_⟩
  · unfold eliminar_imagen
    by_cases h1 : ruta = ""
    · simp [h1]
    · by_cases h2 : rutaCompleta ruta ∈ fs
      · by_cases h3 : removeFails (rutaCompleta ruta) <;> simp [h1, h2, h3]
      · simp [h1, h2]
  · unfold eliminar_imagen
    by_cases h1 : ruta = ""
    · simp [h1]
    · by_cases h2 : rutaCompleta ruta ∈ fs
      · by_cases h3 : removeFails (rutaCompleta ruta) <;> simp [h1, h2, h3]
      · simp [h1, h2]
  · unfold eliminar_imagen
    by_cases h1 : ruta = ""
    · simp [h1]
    · by_cases h2 : rutaCompleta ruta ∈ fs
      · by_cases h3 : removeFails (rutaCompleta ruta) <;> simp [h1, h2, h3]
      · simp [h1, h2]
  · intro hfound
    have htrue := eliminar_usuario_encuentra db usuario_id u hfound
    have heq : eliminar_usuario db usuario_id =
        (true, (eliminar_usuario db usuario_id).2) := by
      rw [← htrue]
    unfold delete_usuario
    rw [hfound, heq]
    exact ⟨rfl, rfl, rfl⟩

/-- C10 witness: deleting a stored user whose image removal fails still
removes the row and returns the confirmation. -/
theorem eliminacion_imagen_total_witness :
    ((eliminar_imagen ["uploads/images/usuarios/a.jpg"] (fun _ => true) "usuarios/a.jpg").1
        = true ↔
      ¬("usuarios/a.jpg" = "") ∧
        ["uploads/images/usuarios/a.jpg"].contains (rutaCompleta "usuarios/a.jpg") = true ∧
        (fun _ => true) (rutaCompleta "usuarios/a.jpg") = false) ∧
    ((eliminar_imagen ["uploads/images/usuarios/a.jpg"] (fun _ => true) "usuarios/a.jpg").1
        = true →
      (eliminar_imagen ["uploads/images/usuarios/a.jpg"] (fun _ => true) "usuarios/a.jpg").2 =
        ["uploads/images/usuarios/a.jpg"].filter (fun p => p ≠ rutaCompleta "usuarios/a.jpg")) ∧
    ((eliminar_imagen ["uploads/images/usuarios/a.jpg"] (fun _ => true) "usuarios/a.jpg").1
        = false →
      (eliminar_imagen ["uploads/images/usuarios/a.jpg"] (fun _ => true) "usuarios/a.jpg").2 =
        ["uploads/images/usuarios/a.jpg"]) ∧
    (obtener_usuario [⟨1, "Ana", "Diaz", "ana@b.com", [1], some "usuarios/a.jpg"⟩] 1 =
        some ⟨1, "Ana", "Diaz", "ana@b.com", [1], some "usuarios/a.jpg"⟩ →
      (delete_usuario [⟨1, "Ana", "Diaz", "ana@b.com", [1], some "usuarios/a.jpg"⟩]
          ["uploads/images/usuarios/a.jpg"] (fun _ => true) 1).1 =
        .ok "Usuario eliminado correctamente" ∧
      (eliminar_usuario [⟨1, "Ana", "Diaz", "ana@b.com", [1], some "usuarios/a.jpg"⟩] 1).1
        = true ∧
      (delete_usuario [⟨1, "Ana", "Diaz", "ana@b.com", [1], some "usuarios/a.jpg"⟩]
          ["uploads/images/usuarios/a.jpg"] (fun _ => true) 1).2.1 =
        (eliminar_usuario [⟨1, "Ana", "Diaz", "ana@b.com", [1], some "usuarios/a.jpg"⟩] 1).2) :=
  eliminacion_imagen_total ["uploads/images/usuarios/a.jpg"] (fun _ => true) "usuarios/a.jpg"
    [⟨1, "Ana", "Diaz", "ana@b.com", [1], some "usuarios/a.jpg"⟩]
    ["uploads/images/usuarios/a.jpg"] 1
    ⟨1, "Ana", "Diaz", "ana@b.com", [1], some "usuarios/a.jpg"⟩

/-- A sample registered user shared by several concrete instances below. -/
def usuarioAna : Usuario := ⟨1, "Ana", "Diaz", "ana@b.com", [1], none⟩

/-- C3 counterexample: a request with an empty name and a perfectly valid
image is indeed rejected with the name validation error, but only AFTER the
embedding provider was called (`providerCalled = true`) — the endpoint runs
`validarRostro` before `crearUsuario`, where the field validation lives. -/
theorem validacion_tras_proveedor_cex :
    (subir_usuario (fun _ _ => 1) [] [] "" "Paz" "a@b.com" "image/jpeg" [1] (.ok [2])
        "f1" false).result = .error ⟨400, "El nombre no puede estar vacío"⟩ ∧
    (subir_usuario (fun _ _ => 1) [] [] "" "Paz" "a@b.com" "image/jpeg" [1] (.ok [2])
        "f1" false).providerCalled = true :=
  ⟨rfl, rfl⟩

/-- C3 amended: for requests passing the content-type gate, embedding
extraction runs BEFORE field validation — a provider failure propagates
without `crearUsuario` (field validation and duplicate check) ever running,
and a field-validation failure such as an empty name is reported only after
the provider call succeeded. -/
theorem orden_validacion_registro (dist : DistFn) (db : List Usuario)
    (files : List String) (nombre apellido email contentType : String)
    (contenido : List Nat) (provider : Except HttpError Emb)
    (imgName : String) (uploadFails : Bool)
    (hct : contentTypePermitido contentType = true) (hc : contenido ≠ []) :
    (∀ e, provider = .error e →
      (subir_usuario dist db files nombre apellido email contentType contenido provider
          imgName uploadFails).result = .error e ∧
      (subir_usuario dist db files nombre apellido email contentType contenido provider
          imgName uploadFails).crearCalled = false) ∧
    (∀ q, provider = .ok q → q ≠ [] → strip nombre = "" →
      (subir_usuario dist db files nombre apellido email contentType contenido provider
          imgName uploadFails).result =
        .error ⟨400, "El nombre no puede estar vacío"⟩ ∧
      (subir_usuario dist db files nombre apellido email contentType contenido provider
          imgName uploadFails).providerCalled = true) := by
  have hgate : ¬ ¬ (contentTypePermitido contentType = true) := by simp [hct]
  constructor
  · intro e he
    subst he
    have hv : validarRostro contenido (.error e) = .error e := by
      simp [validarRostro, hc]
    simp only [subir_usuario]
    rw [if_neg hgate]
    simp only [hv]
    exact ⟨trivial, trivial⟩
  · intro q hq hqne hnombre
    subst hq
    have hv : validarRostro contenido (.ok q) = .ok q := by
      simp [validarRostro, hc, hqne]
    have hcrear : crearUsuario dist db files nombre apellido email q contenido
        (some contentType) imgName uploadFails =
        ⟨.error ⟨400, "El nombre no puede estar vacío"⟩, db, files⟩ := by
      unfold crearUsuario
      rw [if_pos (Or.inr hnombre)]
    simp only [subir_usuario]
    rw [if_neg hgate]
    simp only [hv, hcrear]
    exact ⟨trivial, trivial⟩

/-- C3 amended witness: both orderings at concrete requests — a no-face
provider failure suppresses creation, and an empty name is rejected after a
successful provider call. -/
theorem orden_validacion_registro_witness :
    ((subir_usuario (fun _ _ => 1) [] [] "Luz" "Paz" "a@b.com" "image/jpeg" [1]
        (.error ⟨400, "No se detectó ningún rostro"⟩) "f1" false).result =
      .error ⟨400, "No se detectó ningún rostro"⟩ ∧
    (subir_usuario (fun _ _ => 1) [] [] "Luz" "Paz" "a@b.com" "image/jpeg" [1]
        (.error ⟨400, "No se detectó ningún rostro"⟩) "f1" false).crearCalled = false) ∧
    ((subir_usuario (fun _ _ => 1) [] [] " " "Paz" "a@b.com" "image/jpeg" [1]
        (.ok [2]) "f1" false).result = .error ⟨400, "El nombre no puede estar vacío"⟩ ∧
    (subir_usuario (fun _ _ => 1) [] [] " " "Paz" "a@b.com" "image/jpeg" [1]
        (.ok [2]) "f1" false).providerCalled = true) :=
  ⟨(orden_validacion_registro (fun _ _ => 1) [] [] "Luz" "Paz" "a@b.com" "image/jpeg"
      [1] (.error ⟨400, "No se detectó ningún rostro"⟩) "f1" false (by decide)
      (by decide)).1 ⟨400, "No se detectó ningún rostro"⟩ rfl,
   (orden_validacion_registro (fun _ _ => 1) [] [] " " "Paz" "a@b.com" "image/jpeg"
      [1] (.ok [2]) "f1" false (by decide) (by decide)).2 [2] rfl (by decide)
      (by decide)⟩

/-- C8 counterexample: a registration that hits the duplicate-email
`IntegrityError` returns the 409 conflict and rolls the row back, but the
image file written just before the insert stays in the volume — an orphaned
image remains, contrary to the claimed best-effort cleanup. -/
theorem email_duplicado_huerfano_cex :
    (crearUsuario (fun _ _ => 1) [usuarioAna] [] "Luz" "Paz" "ana@b.com" [5] [9]
        (some "image/png") "f1" false).result =
      .error ⟨409, "El email ana@b.com ya está registrado. Por favor, use otro email."⟩ ∧
    (crearUsuario (fun _ _ => 1) [usuarioAna] [] "Luz" "Paz" "ana@b.com" [5] [9]
        (some "image/png") "f1" false).db = [usuarioAna] ∧
    (crearUsuario (fun _ _ => 1) [usuarioAna] [] "Luz" "Paz" "ana@b.com" [5] [9]
        (some "image/png") "f1" false).files = ["uploads/images/usuarios/f1.png"] := by
  refine ⟨by decide, by decide, by decide⟩

/-- C8 amended: a registration reaching the store insert that fails with the
email unique-constraint violation reports the duplicate-email conflict and
persists no row, but the image already persisted for the attempt is NOT
removed — it remains in the volume as an orphan. -/
theorem conflicto_email_duplicado (dist : DistFn) (db : List Usuario)
    (files : List String) (nombre apellido email : String) (embedding : Emb)
    (imagen : List Nat) (content_type : Option String) (imgName : String)
    (h1 : ¬(nombre = "" ∨ strip nombre = ""))
    (h2 : ¬(apellido = "" ∨ strip apellido = ""))
    (h3 : ¬(nombre.length > 100 ∨ apellido.length > 100))
    (h4 : ¬(email = "" ∨ strip email = ""))
    (h5 : emailValido email = true)
    (h6 : embedding ≠ [])
    (hdup : validarRostroDuplicado dist db embedding none = .ok ())
    (himg : imagen ≠ [])
    (hconf : db.any (fun v => v.email == toLowerStr (strip email)) = true) :
    (crearUsuario dist db files nombre apellido email embedding imagen content_type
        imgName false).result =
      .error ⟨409, s!"El email {email} ya está registrado. Por favor, use otro email."⟩ ∧
    (crearUsuario dist db files nombre apellido email embedding imagen content_type
        imgName false).db = db ∧
    imagenPath imgName
        (obtener_extension_desde_content_type (contentTypeEfectivo content_type)) ∈
      (crearUsuario dist db files nombre apellido email embedding imagen content_type
        imgName false).files := by
  have hmsg : strContains (toLowerStr "UNIQUE constraint failed: usuarios.email")
      "email" = true := by decide
  simp [crearUsuario, h1, h2, h3, h4, h5, h6, hdup, himg, hconf, crear_usuario,
    subir_imagen, hmsg]

/-- C8 amended witness: the conflict at a concrete store with one user. -/
theorem conflicto_email_duplicado_witness :
    (crearUsuario (fun _ _ => 1) [usuarioAna] [] "Mia" "Sol" "ana@b.com" [5] [9]
        (some "image/jpeg") "g7" false).result =
      .error ⟨409, "El email ana@b.com ya está registrado. Por favor, use otro email."⟩ ∧
    (crearUsuario (fun _ _ => 1) [usuarioAna] [] "Mia" "Sol" "ana@b.com" [5] [9]
        (some "image/jpeg") "g7" false).db = [usuarioAna] ∧
    imagenPath "g7"
        (obtener_extension_desde_content_type (contentTypeEfectivo (some "image/jpeg"))) ∈
      (crearUsuario (fun _ _ => 1) [usuarioAna] [] "Mia" "Sol" "ana@b.com" [5] [9]
        (some "image/jpeg") "g7" false).files :=
  conflicto_email_duplicado (fun _ _ => 1) [usuarioAna] [] "Mia" "Sol" "ana@b.com" [5] [9]
    (some "image/jpeg") "g7" (by decide) (by decide) (by decide) (by decide) (by decide)
    (by decide) (by decide) (by decide) (by decide)

/-- Successful `actualizar_usuario`: the store splits at the first row with
the id; that row gets the supplied fields applied, everything else is
unchanged. -/
lemma actualizar_usuario_spec :
    ∀ (db : List Usuario) (usuario_id : Nat) (datos : Datos) (v : Usuario)
      (db1 : List Usuario),
      actualizar_usuario db usuario_id datos = some (v, db1) →
      ∃ l1 u l2, db = l1 ++ u :: l2 ∧ (u.id == usuario_id) = true ∧
        (∀ w ∈ l1, (w.id == usuario_id) = false) ∧ v = aplicarDatos u datos ∧
        db1 = l1 ++ aplicarDatos u datos :: l2 := by
  intro db
  induction db with
  | nil => intro i d v db1 h; simp [actualizar_usuario] at h
  | cons u rest ih =>
    intro i d v db1 h
    by_cases hu : (u.id == i) = true
    · rw [actualizar_usuario, if_pos hu] at h
      obtain ⟨hv, hdb1⟩ := Prod.mk.injEq .. ▸ Option.some.injEq .. ▸ h
      exact ⟨[], u, rest, rfl, hu, by simp, hv.symm, by simp [← hdb1]⟩
    · rw [actualizar_usuario, if_neg hu] at h
      cases hrec : actualizar_usuario rest i d with
      | none => rw [hrec] at h; simp at h
      | some p =>
        rw [hrec] at h
        obtain ⟨v1, rest1⟩ := p
        simp only [Option.some.injEq, Prod.mk.injEq] at h
        obtain ⟨hv1, hdb1⟩ := h
        obtain ⟨l1, w, l2, hsplit, hw, hl1, hv, hrest1⟩ := ih i d v1 rest1 hrec
        refine ⟨u :: l1, w, l2, by simp [hsplit], hw, ?_, by rw [← hv1, hv],
          by simp [← hdb1, hrest1]⟩
        intro x hx
        rcases List.mem_cons.mp hx with hx | hx
        · subst hx
          simpa using hu
        · exact hl1 x hx

/-- C9: the update endpoint commits the field changes before the image step;
when the image step then fails — no face detected (provider failure),
duplicate face, or a storage error while writing the new image — the
operation reports that error while the committed field changes remain
persisted and the stored embedding and image reference keep their previous
values.  In the two validation failure modes the volume is untouched as
well; in the storage-error mode the old image file has already been removed
(best effort) before the failing write. -/
theorem actualizacion_no_atomica (dist : DistFn) (db : List Usuario)
    (files : List String) (usuario_id : Nat) (datos : Datos) (img : ImgUpload)
    (removeFails : String → Bool) (u1 : Usuario) (db1 : List Usuario) (e : HttpError)
    (hct : contentTypePermitido img.contentType = true)
    (hupd : actualizar_usuario db usuario_id datos = some (u1, db1))
    (hfail :
      validarRostro img.contenido img.provider = .error e ∨
      (∃ emb, validarRostro img.contenido img.provider = .ok emb ∧
        validarRostroDuplicado dist db1 emb (some usuario_id) = .error e) ∨
      (∃ emb r, validarRostro img.contenido img.provider = .ok emb ∧
        validarRostroDuplicado dist db1 emb (some usuario_id) = .ok r ∧
        img.uploadFails = true ∧
        e = ⟨500, "Error al guardar imagen en volumen"⟩)) :
    (update_usuario dist db files usuario_id datos (some img) removeFails).result =
      .error e ∧
    (update_usuario dist db files usuario_id datos (some img) removeFails).db = db1 ∧
    ((validarRostro img.contenido img.provider = .error e ∨
      (∃ emb, validarRostro img.contenido img.provider = .ok emb ∧
        validarRostroDuplicado dist db1 emb (some usuario_id) = .error e)) →
      (update_usuario dist db files usuario_id datos (some img) removeFails).files =
        files) ∧
    ((∃ emb r, validarRostro img.contenido img.provider = .ok emb ∧
      validarRostroDuplicado dist db1 emb (some usuario_id) = .ok r ∧
      img.uploadFails = true) →
      (update_usuario dist db files usuario_id datos (some img) removeFails).files =
        (match u1.imagen with
         | some ruta =>
           if ruta ≠ "" then (eliminar_imagen files removeFails ruta).2 else files
         | none => files)) ∧
    ∃ l1 u l2, db = l1 ++ u :: l2 ∧ (u.id == usuario_id) = true ∧
      db1 = l1 ++ aplicarDatos u datos :: l2 ∧
      (aplicarDatos u datos).embedding = u.embedding ∧
      (aplicarDatos u datos).imagen = u.imagen := by
  obtain ⟨l1, u, l2, hsplit, hid, hl1, hv, hdb1⟩ :=
    actualizar_usuario_spec db usuario_id datos u1 db1 hupd
  rcases hfail with hf | ⟨emb, hok, hdup⟩ | ⟨emb, r, hok, hdup, hupl, he⟩
  · have key : update_usuario dist db files usuario_id datos (some img) removeFails =
        ⟨.error e, db1, files⟩ := by
      unfold update_usuario
      rw [if_neg (by simp [hct])]
      rw [hupd]
      simp only [hf]
    refine ⟨by rw [key], by rw [key], fun _ => by rw [key], ?_,
      l1, u, l2, hsplit, hid, hdb1, rfl, rfl⟩
    rintro ⟨emb1, r1, hok1, _, _⟩
    rw [hf] at hok1
    simp at hok1
  · have key : update_usuario dist db files usuario_id datos (some img) removeFails =
        ⟨.error e, db1, files⟩ := by
      unfold update_usuario
      rw [if_neg (by simp [hct])]
      rw [hupd]
      simp only [hok, hdup]
    refine ⟨by rw [key], by rw [key], fun _ => by rw [key], ?_,
      l1, u, l2, hsplit, hid, hdb1, rfl, rfl⟩
    rintro ⟨emb1, r1, hok1, hdup1, _⟩
    rw [hok] at hok1
    simp only [Except.ok.injEq] at hok1
    subst hok1
    rw [hdup] at hdup1
    simp at hdup1
  · subst he
    have key : update_usuario dist db files usuario_id datos (some img) removeFails =
        ⟨.error ⟨500, "Error al guardar imagen en volumen"⟩, db1,
          match u1.imagen with
          | some ruta =>
            if ruta ≠ "" then (eliminar_imagen files removeFails ruta).2 else files
          | none => files⟩ := by
      unfold update_usuario
      rw [if_neg (by simp [hct])]
      rw [hupd]
      simp only [hok, hdup, hupl, if_true]
    refine ⟨by rw [key], by rw [key], ?_, fun _ => by rw [key],
      l1, u, l2, hsplit, hid, hdb1, rfl, rfl⟩
    rintro (hf1 | ⟨emb1, hok1, hdup1⟩)
    · rw [hok] at hf1
      simp at hf1
    · rw [hok] at hok1
      simp only [Except.ok.injEq] at hok1
      subst hok1
      rw [hdup] at hdup1
      simp at hdup1

/-- A stored user with an image on disk, for the storage-error instance. -/
def usuarioAnaImg : Usuario := ⟨1, "Ana", "Diaz", "ana@b.com", [1], some "usuarios/a.jpg"⟩

/-- An upload whose face validates and is no duplicate, but whose volume
write fails. -/
def imgFallaSubida : ImgUpload := ⟨"image/jpeg", [1], .ok [9], "g", true⟩

/-- C9 witness: updating the name together with a new image whose volume
write fails reports the storage error, yet the name change is already
committed while the record's embedding and image reference are untouched
(the old image file, however, was already removed from the volume). -/
theorem actualizacion_no_atomica_witness :
    (update_usuario (fun _ _ => 1) [usuarioAnaImg] ["uploads/images/usuarios/a.jpg"] 1
        ⟨some "Mia", none, none⟩ (some imgFallaSubida) (fun _ => false)).result =
      .error ⟨500, "Error al guardar imagen en volumen"⟩ ∧
    (update_usuario (fun _ _ => 1) [usuarioAnaImg] ["uploads/images/usuarios/a.jpg"] 1
        ⟨some "Mia", none, none⟩ (some imgFallaSubida) (fun _ => false)).db =
      [⟨1, "Mia", "Diaz", "ana@b.com", [1], some "usuarios/a.jpg"⟩] ∧
    ((validarRostro imgFallaSubida.contenido imgFallaSubida.provider =
        .error ⟨500, "Error al guardar imagen en volumen"⟩ ∨
      (∃ emb, validarRostro imgFallaSubida.contenido imgFallaSubida.provider = .ok emb ∧
        validarRostroDuplicado (fun _ _ => 1)
          [⟨1, "Mia", "Diaz", "ana@b.com", [1], some "usuarios/a.jpg"⟩] emb (some 1) =
          .error ⟨500, "Error al guardar imagen en volumen"⟩)) →
      (update_usuario (fun _ _ => 1) [usuarioAnaImg] ["uploads/images/usuarios/a.jpg"] 1
        ⟨some "Mia", none, none⟩ (some imgFallaSubida) (fun _ => false)).files =
        ["uploads/images/usuarios/a.jpg"]) ∧
    ((∃ emb r, validarRostro imgFallaSubida.contenido imgFallaSubida.provider = .ok emb ∧
      validarRostroDuplicado (fun _ _ => 1)
        [⟨1, "Mia", "Diaz", "ana@b.com", [1], some "usuarios/a.jpg"⟩] emb (some 1) =
        .ok r ∧
      imgFallaSubida.uploadFails = true) →
      (update_usuario (fun _ _ => 1) [usuarioAnaImg] ["uploads/images/usuarios/a.jpg"] 1
        ⟨some "Mia", none, none⟩ (some imgFallaSubida) (fun _ => false)).files =
        (match (⟨1, "Mia", "Diaz", "ana@b.com", [1], some "usuarios/a.jpg"⟩ : Usuario).imagen with
         | some ruta =>
           if ruta ≠ "" then
             (eliminar_imagen ["uploads/images/usuarios/a.jpg"] (fun _ => false) ruta).2
           else ["uploads/images/usuarios/a.jpg"]
         | none => ["uploads/images/usuarios/a.jpg"])) ∧
    ∃ l1 u l2, [usuarioAnaImg] = l1 ++ u :: l2 ∧ (u.id == 1) = true ∧
      [⟨1, "Mia", "Diaz", "ana@b.com", [1], some "usuarios/a.jpg"⟩] =
        l1 ++ aplicarDatos u ⟨some "Mia", none, none⟩ :: l2 ∧
      (aplicarDatos u ⟨some "Mia", none, none⟩).embedding = u.embedding ∧
      (aplicarDatos u ⟨some "Mia", none, none⟩).imagen = u.imagen :=
  actualizacion_no_atomica (fun _ _ => 1) [usuarioAnaImg] ["uploads/images/usuarios/a.jpg"]
    1 ⟨some "Mia", none, none⟩ imgFallaSubida (fun _ => false)
    ⟨1, "Mia", "Diaz", "ana@b.com", [1], some "usuarios/a.jpg"⟩
    [⟨1, "Mia", "Diaz", "ana@b.com", [1], some "usuarios/a.jpg"⟩]
    ⟨500, "Error al guardar imagen en volumen"⟩
    (by decide) (by decide)
    (Or.inr (Or.inr ⟨[9], (), by decide, by decide, rfl, rfl⟩))

/-- Behavior of the candidate loop once a best candidate is held: either no
strictly closer embedded row follows and the accumulator survives, or the
loop ends on the first row attaining a strictly smaller minimum. -/
lemma recorrerUsuarios_acc (dist : DistFn) (q : Emb) :
    ∀ (l : List Usuario) (m : ℚ) (u0 : Usuario),
      (recorrerUsuarios dist q l (some (m, u0)) = some (m, u0) ∧
        ∀ v ∈ l, v.embedding ≠ [] → m ≤ dist q v.embedding) ∨
      (∃ l1 u l2, l = l1 ++ u :: l2 ∧ u.embedding ≠ [] ∧
        recorrerUsuarios dist q l (some (m, u0)) = some (dist q u.embedding, u) ∧
        dist q u.embedding < m ∧
        (∀ v ∈ l1, v.embedding ≠ [] → dist q u.embedding < dist q v.embedding) ∧
        (∀ v ∈ l, v.embedding ≠ [] → dist q u.embedding ≤ dist q v.embedding)) := by
  intro l
  induction l with
  | nil =>
    intro m u0
    left
    exact ⟨rfl, by simp⟩
  | cons w rest ih =>
    intro m u0
    by_cases hw : w.embedding = []
    · have hstep : recorrerUsuarios dist q (w :: rest) (some (m, u0)) =
          recorrerUsuarios dist q rest (some (m, u0)) := by
        simp [recorrerUsuarios, hw]
      rcases ih m u0 with ⟨heq, hall⟩ | ⟨l1, u, l2, hsplit, hu, heq, hlt, hfirst, hmin⟩
      · left
        refine ⟨by rw [hstep, heq], ?_⟩
        intro v hv hvne
        rcases List.mem_cons.mp hv with rfl | hv2
        · exact absurd hw hvne
        · exact hall v hv2 hvne
      · right
        refine ⟨w :: l1, u, l2, by simp [hsplit], hu, by rw [hstep, heq], hlt, ?_, ?_⟩
        · intro v hv hvne
          rcases List.mem_cons.mp hv with rfl | hv2
          · exact absurd hw hvne
          · exact hfirst v hv2 hvne
        · intro v hv hvne
          rcases List.mem_cons.mp hv with rfl | hv2
          · exact absurd hw hvne
          · exact hmin v hv2 hvne
    · by_cases hlt : dist q w.embedding < m
      · have hstep : recorrerUsuarios dist q (w :: rest) (some (m, u0)) =
            recorrerUsuarios dist q rest (some (dist q w.embedding, w)) := by
          simp [recorrerUsuarios, hw, hlt]
        rcases ih (dist q w.embedding) w with ⟨heq, hall⟩ |
          ⟨l1, u, l2, hsplit, hu, heq, hlt2, hfirst, hmin⟩
        · right
          refine ⟨[], w, rest, rfl, hw, by rw [hstep, heq], hlt, by simp, ?_⟩
          intro v hv hvne
          rcases List.mem_cons.mp hv with rfl | hv2
          · exact le_refl _
          · exact hall v hv2 hvne
        · right
          refine ⟨w :: l1, u, l2, by simp [hsplit], hu, by rw [hstep, heq],
            lt_trans hlt2 hlt, ?_, ?_⟩
          · intro v hv hvne
            rcases List.mem_cons.mp hv with rfl | hv2
            · exact hlt2
            · exact hfirst v hv2 hvne
          · intro v hv hvne
            rcases List.mem_cons.mp hv with rfl | hv2
            · exact le_of_lt hlt2
            · exact hmin v hv2 hvne
      · have hstep : recorrerUsuarios dist q (w :: rest) (some (m, u0)) =
            recorrerUsuarios dist q rest (some (m, u0)) := by
          simp [recorrerUsuarios, hw, hlt]
        have hge : m ≤ dist q w.embedding := le_of_not_lt hlt
        rcases ih m u0 with ⟨heq, hall⟩ | ⟨l1, u, l2, hsplit, hu, heq, hlt2, hfirst, hmin⟩
        · left
          refine ⟨by rw [hstep, heq], ?_⟩
          intro v hv hvne
          rcases List.mem_cons.mp hv with rfl | hv2
          · exact hge
          · exact hall v hv2 hvne
        · right
          refine ⟨w :: l1, u, l2, by simp [hsplit], hu, by rw [hstep, heq], hlt2, ?_, ?_⟩
          · intro v hv hvne
            rcases List.mem_cons.mp hv with rfl | hv2
            · exact lt_of_lt_of_le hlt2 hge
            · exact hfirst v hv2 hvne
          · intro v hv hvne
            rcases List.mem_cons.mp hv with rfl | hv2
            · exact le_of_lt (lt_of_lt_of_le hlt2 hge)
            · exact hmin v hv2 hvne

/-- Starting from the initial infinite distance, the loop returns the first
row attaining the minimum distance among rows with an embedding. -/
lemma recorrerUsuarios_none (dist : DistFn) (q : Emb) :
    ∀ (l : List Usuario), (∃ v ∈ l, v.embedding ≠ []) →
      ∃ l1 u l2, l = l1 ++ u :: l2 ∧ u.embedding ≠ [] ∧
        recorrerUsuarios dist q l none = some (dist q u.embedding, u) ∧
        (∀ v ∈ l1, v.embedding ≠ [] → dist q u.embedding < dist q v.embedding) ∧
        (∀ v ∈ l, v.embedding ≠ [] → dist q u.embedding ≤ dist q v.embedding) := by
  intro l
  induction l with
  | nil => rintro ⟨v, hv, _⟩; simp at hv
  | cons w rest ih =>
    intro hex
    by_cases hw : w.embedding = []
    · have hstep : recorrerUsuarios dist q (w :: rest) none =
          recorrerUsuarios dist q rest none := by
        simp [recorrerUsuarios, hw]
      have hex2 : ∃ v ∈ rest, v.embedding ≠ [] := by
        rcases hex with ⟨v, hv, hvne⟩
        rcases List.mem_cons.mp hv with rfl | hv2
        · exact absurd hw hvne
        · exact ⟨v, hv2, hvne⟩
      obtain ⟨l1, u, l2, hsplit, hu, heq, hfirst, hmin⟩ := ih hex2
      refine ⟨w :: l1, u, l2, by simp [hsplit], hu, by rw [hstep, heq], ?_, ?_⟩
      · intro v hv hvne
        rcases List.mem_cons.mp hv with rfl | hv2
        · exact absurd hw hvne
        · exact hfirst v hv2 hvne
      · intro v hv hvne
        rcases List.mem_cons.mp hv with rfl | hv2
        · exact absurd hw hvne
        · exact hmin v hv2 hvne
    · have hstep : recorrerUsuarios dist q (w :: rest) none =
          recorrerUsuarios dist q rest (some (dist q w.embedding, w)) := by
        simp [recorrerUsuarios, hw]
      rcases recorrerUsuarios_acc dist q rest (dist q w.embedding) w with
        ⟨heq, hall⟩ | ⟨l1, u, l2, hsplit, hu, heq, hlt, hfirst, hmin⟩
      · refine ⟨[], w, rest, rfl, hw, by rw [hstep, heq], by simp, ?_⟩
        intro v hv hvne
        rcases List.mem_cons.mp hv with rfl | hv2
        · exact le_refl _
        · exact hall v hv2 hvne
      · refine ⟨w :: l1, u, l2, by simp [hsplit], hu, by rw [hstep, heq], ?_, ?_⟩
        · intro v hv hvne
          rcases List.mem_cons.mp hv with rfl | hv2
          · exact hlt
          · exact hfirst v hv2 hvne
        · intro v hv hvne
          rcases List.mem_cons.mp hv with rfl | hv2
          · exact le_of_lt hlt
          · exact hmin v hv2 hvne

/-- C2: over a store with at least one embedded row, recognition skips the
rows without embeddings and settles on the first row attaining the strictly
smallest distance to the query — every earlier embedded row is strictly
farther, every embedded row at least as far — and recognizes that row
exactly when its distance is strictly below the threshold, reporting no
match otherwise. -/
theorem comparar_seleccion_minima (dist : DistFn) (usuarios : List Usuario)
    (contenido : List Nat) (q : Emb) (hc : contenido ≠ []) (hq : q ≠ [])
    (hex : ∃ v ∈ usuarios, v.embedding ≠ []) :
    ∃ l1 u l2, usuarios = l1 ++ u :: l2 ∧ u.embedding ≠ [] ∧
      (∀ v ∈ l1, v.embedding ≠ [] → dist q u.embedding < dist q v.embedding) ∧
      (∀ v ∈ usuarios, v.embedding ≠ [] → dist q u.embedding ≤ dist q v.embedding) ∧
      compararRostro dist usuarios contenido (.ok q) =
        (if dist q u.embedding < UMBRAL_SIMILITUD then .ok (some u.nombre)
         else .ok none) := by
  obtain ⟨l1, u, l2, hsplit, hu, heq, hfirst, hmin⟩ := recorrerUsuarios_none dist q usuarios hex
  have hne : usuarios ≠ [] := by
    rcases hex with ⟨v, hv, _⟩
    exact List.ne_nil_of_mem hv
  have hv : validarRostro contenido (.ok q) = .ok q := by simp [validarRostro, hc, hq]
  refine ⟨l1, u, l2, hsplit, hu, hfirst, hmin, ?_⟩
  simp only [compararRostro, hv]
  rw [if_neg hne, heq]

/-- One half, as a normalized rational: the 0.5 of the two-candidate example. -/
def mediaQ : ℚ := ⟨1, 2, by norm_num, by norm_num⟩

/-- Example identity E1, at distance 0 from the example query. -/
def usuarioE1 : Usuario := ⟨1, "E1", "Uno", "e1@b.com", [1], none⟩

/-- Example identity E2, at distance 0.5 from the example query. -/
def usuarioE2 : Usuario := ⟨2, "E2", "Dos", "e2@b.com", [2], none⟩

/-- A distance giving 0.0 against E1's embedding and 0.5 otherwise. -/
def distEjemplo : DistFn := fun _ b => if b = [1] then 0 else mediaQ

/-- C2 witness: the selection at distances 0.0 (E1) and 0.5 (E2), in both
insertion orders; in both cases the recognized user is E1. -/
theorem comparar_seleccion_minima_witness :
    compararRostro distEjemplo [usuarioE1, usuarioE2] [7] (.ok [1]) = .ok (some "E1") ∧
    compararRostro distEjemplo [usuarioE2, usuarioE1] [7] (.ok [1]) = .ok (some "E1") ∧
    (∃ l1 u l2, [usuarioE1, usuarioE2] = l1 ++ u :: l2 ∧ u.embedding ≠ [] ∧
      (∀ v ∈ l1, v.embedding ≠ [] →
        distEjemplo [1] u.embedding < distEjemplo [1] v.embedding) ∧
      (∀ v ∈ [usuarioE1, usuarioE2], v.embedding ≠ [] →
        distEjemplo [1] u.embedding ≤ distEjemplo [1] v.embedding) ∧
      compararRostro distEjemplo [usuarioE1, usuarioE2] [7] (.ok [1]) =
        (if distEjemplo [1] u.embedding < UMBRAL_SIMILITUD then .ok (some u.nombre)
         else .ok none)) ∧
    (∃ l1 u l2, [usuarioE2, usuarioE1] = l1 ++ u :: l2 ∧ u.embedding ≠ [] ∧
      (∀ v ∈ l1, v.embedding ≠ [] →
        distEjemplo [1] u.embedding < distEjemplo [1] v.embedding) ∧
      (∀ v ∈ [usuarioE2, usuarioE1], v.embedding ≠ [] →
        distEjemplo [1] u.embedding ≤ distEjemplo [1] v.embedding) ∧
      compararRostro distEjemplo [usuarioE2, usuarioE1] [7] (.ok [1]) =
        (if distEjemplo [1] u.embedding < UMBRAL_SIMILITUD then .ok (some u.nombre)
         else .ok none)) :=
  ⟨by decide, by decide,
   comparar_seleccion_minima distEjemplo [usuarioE1, usuarioE2] [7] [1] (by decide)
     (by decide) ⟨usuarioE1, by decide, by decide⟩,
   comparar_seleccion_minima distEjemplo [usuarioE2, usuarioE1] [7] [1] (by decide)
     (by decide) ⟨usuarioE2, by decide, by decide⟩⟩

/-- Two registry rows are acceptable together: distinct ids and embeddings at
or beyond the duplicate threshold in both directions. -/
def Lejanos (dist : DistFn) (a b : Usuario) : Prop :=
  a.id ≠ b.id ∧ UMBRAL_SIMILITUD ≤ dist a.embedding b.embedding ∧
    UMBRAL_SIMILITUD ≤ dist b.embedding a.embedding

/-- The registry invariant: every row carries a non-empty embedding and every
pair of distinct rows is `Lejanos`. -/
def RegistryOk (dist : DistFn) (db : List Usuario) : Prop :=
  (∀ u ∈ db, u.embedding ≠ []) ∧ List.Pairwise (Lejanos dist) db

/-- If the duplicate check passes, every non-excluded embedded row is at
least the threshold away from the candidate embedding. -/
lemma validarRostroDuplicado_ok_forall (dist : DistFn) :
    ∀ (usuarios : List Usuario) (embedding : Emb) (excluir : Option Nat) (r : Unit),
      validarRostroDuplicado dist usuarios embedding excluir = .ok r →
      ∀ u ∈ usuarios, excludeUser excluir u.id = false → u.embedding ≠ [] →
        UMBRAL_SIMILITUD ≤ dist embedding u.embedding := by
  intro usuarios
  induction usuarios with
  | nil => intro emb exc r h u hu; simp at hu
  | cons w rest ih =>
    intro emb exc r h u hu hexc hne
    simp only [validarRostroDuplicado] at h
    rcases List.mem_cons.mp hu with rfl | hu2
    · rw [if_neg (by simp [hexc]), if_neg hne] at h
      by_cases hlt : dist emb u.embedding < UMBRAL_SIMILITUD
      · rw [if_pos hlt] at h; simp at h
      · exact le_of_not_lt hlt
    · by_cases hskip : excludeUser exc w.id = true
      · rw [if_pos hskip] at h
        exact ih emb exc r h u hu2 hexc hne
      · rw [if_neg hskip] at h
        by_cases hwe : w.embedding = []
        · rw [if_pos hwe] at h
          exact ih emb exc r h u hu2 hexc hne
        · rw [if_neg hwe] at h
          by_cases hlt : dist emb w.embedding < UMBRAL_SIMILITUD
          · rw [if_pos hlt] at h; simp at h
          · rw [if_neg hlt] at h
            exact ih emb exc r h u hu2 hexc hne

/-- Every stored id is strictly below the next autoincrement id. -/
lemma id_lt_nextId : ∀ (db : List Usuario), ∀ u ∈ db, u.id < nextId db := by
  intro db
  induction db with
  | nil => intro u hu; simp at hu
  | cons w rest ih =>
    intro u hu
    rcases List.mem_cons.mp hu with rfl | hu2
    · have h1 : u.id ≤ max u.id (rest.foldr (fun v m => max v.id m) 0) :=
        Nat.le_max_left _ _
      simp only [nextId, List.foldr]
      omega
    · have h1 := ih u hu2
      simp only [nextId, List.foldr] at h1 ⊢
      have h2 : rest.foldr (fun v m => max v.id m) 0 ≤
          max w.id (rest.foldr (fun v m => max v.id m) 0) := Nat.le_max_right _ _
      omega

/-- A successfully validated embedding is non-empty. -/
lemma validarRostro_ok_ne_nil (contenido : List Nat) (provider : Except HttpError Emb)
    (emb : Emb) (h : validarRostro contenido provider = .ok emb) : emb ≠ [] := by
  unfold validarRostro at h
  by_cases hc : contenido = []
  · rw [if_pos hc] at h; simp at h
  · rw [if_neg hc] at h
    cases provider with
    | error e => simp at h
    | ok e =>
      by_cases he : e = []
      · simp [he] at h
      · simp [he] at h
        subst h
        exact he

/-- Replacing the distinguished element of a pairwise list stays pairwise,
given the replacement relates to both sides. -/
lemma pairwise_replace {R : Usuario → Usuario → Prop} (l1 : List Usuario)
    (u u' : Usuario) (l2 : List Usuario)
    (hp : List.Pairwise R (l1 ++ u :: l2))
    (h1 : ∀ w ∈ l1, R w u') (h2 : ∀ w ∈ l2, R u' w) :
    List.Pairwise R (l1 ++ u' :: l2) := by
  rw [List.pairwise_append] at hp ⊢
  obtain ⟨hp1, hp2, hcross⟩ := hp
  rw [List.pairwise_cons] at hp2 ⊢
  obtain ⟨hu_l2, hp_l2⟩ := hp2
  refine ⟨hp1, ⟨h2, hp_l2⟩, ?_⟩
  intro a ha b hb
  rcases List.mem_cons.mp hb with rfl | hb2
  · exact h1 a ha
  · exact hcross a ha b (List.mem_cons_of_mem _ hb2)

/-- Replacing the distinguished element by one with the same id and embedding
preserves pairwise `Lejanos`. -/
lemma pairwise_replace_congr (dist : DistFn) (l1 l2 : List Usuario) (u u' : Usuario)
    (hid : u'.id = u.id) (hemb : u'.embedding = u.embedding)
    (hp : List.Pairwise (Lejanos dist) (l1 ++ u :: l2)) :
    List.Pairwise (Lejanos dist) (l1 ++ u' :: l2) := by
  have hcross : ∀ w ∈ l1, Lejanos dist w u := by
    rw [List.pairwise_append] at hp
    intro w hw
    exact hp.2.2 w hw u (List.mem_cons_self _ _)
  have hright : ∀ w ∈ l2, Lejanos dist u w := by
    rw [List.pairwise_append, List.pairwise_cons] at hp
    exact fun w hw => hp.2.1.1 w hw
  apply pairwise_replace l1 u u' l2 hp
  · intro w hw
    obtain ⟨ha, hb, hc⟩ := hcross w hw
    exact ⟨by rw [hid]; exact ha, by rw [hemb]; exact hb, by rw [hemb]; exact hc⟩
  · intro w hw
    obtain ⟨ha, hb, hc⟩ := hright w hw
    exact ⟨by rw [hid]; exact ha, by rw [hemb]; exact hb, by rw [hemb]; exact hc⟩

/-- `setImagenEmbedding` replaces exactly the distinguished row when nothing
before it carries the id. -/
lemma setImagenEmbedding_split (emb : Emb) (ruta : String) :
    ∀ (l1 : List Usuario) (u : Usuario) (l2 : List Usuario) (usuario_id : Nat),
      (u.id == usuario_id) = true → (∀ w ∈ l1, (w.id == usuario_id) = false) →
      setImagenEmbedding (l1 ++ u :: l2) usuario_id emb ruta =
        l1 ++ { u with embedding := emb, imagen := some ruta } :: l2 := by
  intro l1
  induction l1 with
  | nil =>
    intro u l2 i hu _
    simp only [List.nil_append, setImagenEmbedding]
    rw [if_pos hu]
  | cons w rest ih =>
    intro u l2 i hu hl
    have hw : (w.id == i) = false := hl w (List.mem_cons_self _ _)
    simp only [List.cons_append, setImagenEmbedding]
    rw [if_neg (by simp [hw])]
    rw [List.append_eq, ih u l2 i hu (fun x hx => hl x (List.mem_cons_of_mem _ hx))]

/-- Appending a fresh row that passed the duplicate check against the whole
store preserves the registry invariant. -/
lemma registryOk_append (dist : DistFn) (hsym : ∀ a b, dist a b = dist b a)
    (db : List Usuario) (g : Usuario)
    (hinv : RegistryOk dist db) (hfresh : ∀ u ∈ db, u.id ≠ g.id)
    (hemb : g.embedding ≠ [])
    (hdist : ∀ u ∈ db, u.embedding ≠ [] →
      UMBRAL_SIMILITUD ≤ dist g.embedding u.embedding) :
    RegistryOk dist (db ++ [g]) := by
  obtain ⟨hmem, hpw⟩ := hinv
  constructor
  · intro u hu
    rcases List.mem_append.mp hu with hu | hu
    · exact hmem u hu
    · rw [List.mem_singleton.mp hu]
      exact hemb
  · rw [List.pairwise_append]
    refine ⟨hpw, List.pairwise_singleton _ _, ?_⟩
    intro a ha b hb
    rw [List.mem_singleton.mp hb]
    have hane := hmem a ha
    refine ⟨hfresh a ha, ?_, hdist a ha hane⟩
    rw [hsym]
    exact hdist a ha hane

/-- The store after `crearUsuario`: either unchanged (any failure) or — when
the duplicate check passed, the embedding was non-empty and the insert
succeeded — extended by exactly the new normalized row with the fresh id. -/
lemma crearUsuario_db_cases (dist : DistFn) (db : List Usuario) (files : List String)
    (nombre apellido email : String) (embedding : Emb) (imagen : List Nat)
    (content_type : Option String) (imgName : String) (uploadFails : Bool) :
    (crearUsuario dist db files nombre apellido email embedding imagen content_type
        imgName uploadFails).db = db ∨
    (embedding ≠ [] ∧ validarRostroDuplicado dist db embedding none = .ok () ∧
      (crearUsuario dist db files nombre apellido email embedding imagen content_type
        imgName uploadFails).db =
        db ++ [⟨nextId db, strip nombre, strip apellido, toLowerStr (strip email), embedding,
          if imagen ≠ [] then
            some (rutaRelativa imgName
              (obtener_extension_desde_content_type (contentTypeEfectivo content_type)))
          else none⟩]) := by
  simp only [crearUsuario]
  by_cases h1 : (nombre = "" ∨ strip nombre = "")
  · rw [if_pos h1]; exact Or.inl rfl
  rw [if_neg h1]
  by_cases h2 : (apellido = "" ∨ strip apellido = "")
  · rw [if_pos h2]; exact Or.inl rfl
  rw [if_neg h2]
  by_cases h3 : (nombre.length > 100 ∨ apellido.length > 100)
  · rw [if_pos h3]; exact Or.inl rfl
  rw [if_neg h3]
  by_cases h4 : (email = "" ∨ strip email = "")
  · rw [if_pos h4]; exact Or.inl rfl
  rw [if_neg h4]
  by_cases h5 : emailValido email = true
  · rw [if_neg (by simp [h5])]
    by_cases h6 : embedding = []
    · rw [if_pos h6]; exact Or.inl rfl
    rw [if_neg h6]
    cases hdup : validarRostroDuplicado dist db embedding none with
    | error e => simp only [hdup]; exact Or.inl (by trivial)
    | ok r =>
      simp only [hdup]
      by_cases h7 : (imagen ≠ [] ∧ uploadFails = true)
      · rw [if_pos h7]; exact Or.inl rfl
      rw [if_neg h7]
      by_cases h8 : db.any (fun v => v.email == toLowerStr (strip email)) = true
      · have hcr : crear_usuario db
            ⟨0, strip nombre, strip apellido, toLowerStr (strip email), embedding,
              if imagen ≠ [] then
                some (rutaRelativa imgName
                  (obtener_extension_desde_content_type (contentTypeEfectivo content_type)))
              else none⟩ = .error ⟨"UNIQUE constraint failed: usuarios.email"⟩ := by
          simp only [crear_usuario]
          rw [if_pos h8]
        simp only [hcr]
        left
        split <;> rfl
      · have hcr : crear_usuario db
            ⟨0, strip nombre, strip apellido, toLowerStr (strip email), embedding,
              if imagen ≠ [] then
                some (rutaRelativa imgName
                  (obtener_extension_desde_content_type (contentTypeEfectivo content_type)))
              else none⟩ =
            .ok (db ++ [⟨nextId db, strip nombre, strip apellido, toLowerStr (strip email),
              embedding,
              if imagen ≠ [] then
                some (rutaRelativa imgName
                  (obtener_extension_desde_content_type (contentTypeEfectivo content_type)))
              else none⟩],
              ⟨nextId db, strip nombre, strip apellido, toLowerStr (strip email), embedding,
              if imagen ≠ [] then
                some (rutaRelativa imgName
                  (obtener_extension_desde_content_type (contentTypeEfectivo content_type)))
              else none⟩) := by
          simp only [crear_usuario]
          rw [if_neg h8]
        simp only [hcr]
        exact Or.inr ⟨h6, by trivial, by trivial⟩
  · rw [if_pos (by simp [h5])]
    exact Or.inl rfl

/-- `crearUsuario` preserves the registry invariant. -/
lemma crearUsuario_inv (dist : DistFn) (hsym : ∀ a b, dist a b = dist b a)
    (db : List Usuario) (files : List String) (nombre apellido email : String)
    (embedding : Emb) (imagen : List Nat) (content_type : Option String)
    (imgName : String) (uploadFails : Bool) (hinv : RegistryOk dist db) :
    RegistryOk dist (crearUsuario dist db files nombre apellido email embedding imagen
      content_type imgName uploadFails).db := by
  rcases crearUsuario_db_cases dist db files nombre apellido email embedding imagen
      content_type imgName uploadFails with h | ⟨hemb, hdup, h⟩
  · rw [h]; exact hinv
  · rw [h]
    apply registryOk_append dist hsym db _ hinv
    · intro u hu
      exact Nat.ne_of_lt (id_lt_nextId db u hu)
    · exact hemb
    · intro u hu hune
      exact validarRostroDuplicado_ok_forall dist db embedding none () hdup u hu rfl hune

/-- The registration endpoint preserves the registry invariant. -/
lemma subir_usuario_inv (dist : DistFn) (hsym : ∀ a b, dist a b = dist b a)
    (db : List Usuario) (files : List String) (nombre apellido email contentType : String)
    (contenido : List Nat) (provider : Except HttpError Emb) (imgName : String)
    (uploadFails : Bool) (hinv : RegistryOk dist db) :
    RegistryOk dist (subir_usuario dist db files nombre apellido email contentType
      contenido provider imgName uploadFails).db := by
  simp only [subir_usuario]
  split
  · exact hinv
  · split
    · exact hinv
    · split <;>
        exact crearUsuario_inv dist hsym db files nombre apellido email _ contenido
          (some contentType) imgName uploadFails hinv

/-- A successful field update preserves the registry invariant: ids and
embeddings are untouched. -/
lemma actualizar_usuario_inv (dist : DistFn) (db : List Usuario) (usuario_id : Nat)
    (datos : Datos) (u1 : Usuario) (db1 : List Usuario)
    (heq : actualizar_usuario db usuario_id datos = some (u1, db1))
    (hinv : RegistryOk dist db) : RegistryOk dist db1 := by
  obtain ⟨l1, u, l2, hsplitdb, hid, hl1, hv1, hdb1⟩ :=
    actualizar_usuario_spec db usuario_id datos u1 db1 heq
  have humem : u ∈ db := by
    rw [hsplitdb]
    exact List.mem_append_right _ (List.mem_cons_self _ _)
  constructor
  · intro x hx
    rw [hdb1] at hx
    rcases List.mem_append.mp hx with hx | hx
    · exact hinv.1 x (by rw [hsplitdb]; exact List.mem_append_left _ hx)
    · rcases List.mem_cons.mp hx with rfl | hx2
      · exact hinv.1 u humem
      · exact hinv.1 x
          (by rw [hsplitdb]; exact List.mem_append_right _ (List.mem_cons_of_mem _ hx2))
  · rw [hdb1]
    apply pairwise_replace_congr dist l1 l2 u (aplicarDatos u datos) rfl rfl
    rw [← hsplitdb]
    exact hinv.2

/-- The update endpoint preserves the registry invariant. -/
lemma update_usuario_inv (dist : DistFn) (hsym : ∀ a b, dist a b = dist b a)
    (db : List Usuario) (files : List String) (usuario_id : Nat) (datos : Datos)
    (imagen : Option ImgUpload) (removeFails : String → Bool)
    (hinv : RegistryOk dist db) :
    RegistryOk dist (update_usuario dist db files usuario_id datos imagen
      removeFails).db := by
  cases imagen with
  | none =>
    simp only [update_usuario]
    split
    · exact hinv
    split
    · exact hinv
    rename_i u1 db1 heq
    exact actualizar_usuario_inv dist db usuario_id datos u1 db1 heq hinv
  | some img =>
    simp only [update_usuario]
    split
    · exact hinv
    split
    · exact hinv
    rename_i u1 db1 heq
    have hinv1 : RegistryOk dist db1 :=
      actualizar_usuario_inv dist db usuario_id datos u1 db1 heq hinv
    obtain ⟨l1, u, l2, hsplitdb, hid, hl1, hv1, hdb1⟩ :=
      actualizar_usuario_spec db usuario_id datos u1 db1 heq
    split
    · exact hinv1
    rename_i emb hvr
    split
    · exact hinv1
    rename_i r hdup
    split
    · exact hinv1
    have hembne : emb ≠ [] := validarRostro_ok_ne_nil img.contenido img.provider emb hvr
    have hdupall := validarRostroDuplicado_ok_forall dist db1 emb (some usuario_id) r hdup
    have hidu : u.id = usuario_id := eq_of_beq hid
    have hpw1 : List.Pairwise (Lejanos dist) (l1 ++ aplicarDatos u datos :: l2) := by
      rw [← hdb1]; exact hinv1.2
    have hmem1 : ∀ x ∈ db1, x.embedding ≠ [] := hinv1.1
    have hl2ne : ∀ w ∈ l2, w.id ≠ usuario_id := by
      intro w hw
      rw [List.pairwise_append, List.pairwise_cons] at hpw1
      have hne := (hpw1.2.1.1 w hw).1
      rw [← hidu]
      exact fun hcontra => hne hcontra.symm
    have hl2beq : ∀ w ∈ l2, (w.id == usuario_id) = false := by
      intro w hw
      cases hb : w.id == usuario_id with
      | false => rfl
      | true => exact absurd (eq_of_beq hb) (hl2ne w hw)
    have hdist1 : ∀ w, w ∈ l1 ∨ w ∈ l2 → UMBRAL_SIMILITUD ≤ dist emb w.embedding := by
      intro w hw
      have hwmem : w ∈ db1 := by
        rw [hdb1]
        rcases hw with hw | hw
        · exact List.mem_append_left _ hw
        · exact List.mem_append_right _ (List.mem_cons_of_mem _ hw)
      have hbeq : (w.id == usuario_id) = false := by
        rcases hw with hw | hw
        · exact hl1 w hw
        · exact hl2beq w hw
      exact hdupall w hwmem (by simp [excludeUser, hbeq]) (hmem1 w hwmem)
    rw [hdb1, setImagenEmbedding_split emb _ l1 (aplicarDatos u datos) l2 usuario_id hid hl1]
    constructor
    · intro x hx
      rcases List.mem_append.mp hx with hx | hx
      · exact hmem1 x (by rw [hdb1]; exact List.mem_append_left _ hx)
      · rcases List.mem_cons.mp hx with rfl | hx2
        · exact hembne
        · exact hmem1 x
            (by rw [hdb1]; exact List.mem_append_right _ (List.mem_cons_of_mem _ hx2))
    · apply pairwise_replace l1 (aplicarDatos u datos) _ l2 hpw1
      · intro w hw
        refine ⟨?_, ?_, ?_⟩
        · intro hcontra
          have hwu : w.id = u.id := hcontra
          exact ne_of_beq_false (hl1 w hw) (by rw [hwu]; exact hidu)
        · show UMBRAL_SIMILITUD ≤ dist w.embedding emb
          rw [hsym w.embedding emb]
          exact hdist1 w (Or.inl hw)
        · show UMBRAL_SIMILITUD ≤ dist emb w.embedding
          exact hdist1 w (Or.inl hw)
      · intro w hw
        refine ⟨?_, ?_, ?_⟩
        · intro hcontra
          have hwu : u.id = w.id := hcontra
          exact hl2ne w hw (by rw [← hwu]; exact hidu)
        · show UMBRAL_SIMILITUD ≤ dist emb w.embedding
          exact hdist1 w (Or.inr hw)
        · show UMBRAL_SIMILITUD ≤ dist w.embedding emb
          rw [hsym w.embedding emb]
          exact hdist1 w (Or.inr hw)

/-- Each write operation preserves the registry invariant. -/
lemma runOp_inv (dist : DistFn) (hsym : ∀ a b, dist a b = dist b a)
    (s : List Usuario × List String) (op : Op) (hinv : RegistryOk dist s.1) :
    RegistryOk dist (runOp dist s op).1 := by
  cases op with
  | register nombre apellido email contentType contenido provider imgName uploadFails =>
    exact subir_usuario_inv dist hsym s.1 s.2 nombre apellido email contentType contenido
      provider imgName uploadFails hinv
  | update usuario_id datos imagen removeFails =>
    exact update_usuario_inv dist hsym s.1 s.2 usuario_id datos imagen removeFails hinv

/-- Running any operation sequence from an invariant state keeps the
invariant. -/
lemma runOps_inv_aux (dist : DistFn) (hsym : ∀ a b, dist a b = dist b a) :
    ∀ (ops : List Op) (s : List Usuario × List String), RegistryOk dist s.1 →
      RegistryOk dist (ops.foldl (runOp dist) s).1 := by
  intro ops
  induction ops with
  | nil => intro s h; exact h
  | cons op rest ih =>
    intro s h
    exact ih _ (runOp_inv dist hsym s op h)

/-- C1: after any sequential mix of registration and update operations run
from the empty registry, every pair of distinct stored identity records has
embeddings at cosine distance at least the duplicate threshold 0.37 (in both
directions), because every write that introduces or replaces an embedding
first passes `validarRostroDuplicado` against all other stored rows;
symmetry of the distance is the only property of the metric used. -/
theorem registro_invariante_distancia (dist : DistFn)
    (hsym : ∀ a b, dist a b = dist b a) (ops : List Op) :
    List.Pairwise (fun a b => UMBRAL_SIMILITUD ≤ dist a.embedding b.embedding ∧
      UMBRAL_SIMILITUD ≤ dist b.embedding a.embedding) (runOps dist ops).1 := by
  have h := runOps_inv_aux dist hsym ops ([], []) ⟨by simp, List.Pairwise.nil⟩
  exact h.2.imp (fun hab => ⟨hab.2.1, hab.2.2⟩)

/-- C1 witness: a concrete two-registration run under a concrete symmetric
distance; the resulting store satisfies the pairwise threshold property. -/
theorem registro_invariante_distancia_witness :
    (∀ a b : Emb, (fun _ _ => (1:ℚ)) a b = (fun _ _ => (1:ℚ)) b a) ∧
    List.Pairwise (fun a b =>
      UMBRAL_SIMILITUD ≤ (fun _ _ => (1:ℚ)) a.embedding b.embedding ∧
      UMBRAL_SIMILITUD ≤ (fun _ _ => (1:ℚ)) b.embedding a.embedding)
      (runOps (fun _ _ => 1)
        [.register "Ana" "Diaz" "ana@b.com" "image/jpeg" [1] (.ok [1]) "f1" false,
         .register "Luz" "Paz" "luz@b.com" "image/jpeg" [1] (.ok [2]) "f2" false]).1 :=
  ⟨fun _ _ => rfl,
   registro_invariante_distancia (fun _ _ => 1) (fun _ _ => rfl)
     [.register "Ana" "Diaz" "ana@b.com" "image/jpeg" [1] (.ok [1]) "f1" false,
      .register "Luz" "Paz" "luz@b.com" "image/jpeg" [1] (.ok [2]) "f2" false]⟩
